import Mathlib

/-!
Shallow embedding of the dataset summarization and quality-scoring engine of
the eda-cli repository, together with the report-command logic of
src/homeworks/HW03/eda-cli/src/eda_cli/cli.py.

The engine module eda_cli/core.py itself is not part of the source tree here
(only its tests in src/homeworks/HW04/tests/test_core.py and its caller
src/homeworks/HW03/eda-cli/src/eda_cli/cli.py are), so the engine definitions
below are modelled from the specification, faithful to its words; each such
definition says so in its doc comment.  Missing cells are modelled as
Option.none (a floating-point NaN in the original is a missing cell).
-/

namespace EdaCore

/-- A cell value of a table: numeric (rationals stand in for floats/ints),
textual, or boolean.  Modelled from the spec: value domain of a Table. -/
inductive Val where
  | num (q : ℚ)
  | str (s : String)
  | boolean (b : Bool)
deriving DecidableEq

/-- Coarse type class of a column.  Modelled from the spec: "numeric,
textual, boolean, temporal". -/
inductive TypeClass where
  | numeric
  | textual
  | boolean
  | temporal
deriving DecidableEq

/-- One named column: declared type class plus an ordered sequence of
nullable cells.  Modelled from the spec's Table data model. -/
structure Column where
  name : String
  type_class : TypeClass
  cells : List (Option Val)
deriving DecidableEq

/-- A table is an ordered sequence of columns.  Modelled from the spec. -/
structure Table where
  cols : List Column
deriving DecidableEq

/-- Row count of a table: the length of its first column (0 for a table with
no columns).  Under the Table invariant all columns have this length. -/
def nRows (t : Table) : Nat :=
  match t.cols with
  | [] => 0
  | c :: _ => c.cells.length

/-- True for values of the numeric constructor. -/
def Val.isNum : Val → Bool
  | .num _ => true
  | _ => false

/-- The Table invariant of the spec: all columns have the row count as their
length, and numeric columns hold only numeric values in non-missing cells. -/
structure WF (t : Table) : Prop where
  lens : ∀ c ∈ t.cols, c.cells.length = nRows t
  numericCells : ∀ c ∈ t.cols, c.type_class = TypeClass.numeric →
    ∀ v ∈ c.cells.filterMap id, v.isNum = true

/-- The non-missing values of a column, in row order. -/
def nonMissing (c : Column) : List Val := c.cells.filterMap id

/-- Number of null entries of a column (Column Profiler).  Modelled from the
spec: "missing_count = number of null entries". -/
def missing_count (c : Column) : Nat := (c.cells.filter Option.isNone).length

/-- First-encountered-order list of the distinct values of a list. -/
def firstDistinct (l : List Val) : List Val := l.reverse.dedup.reverse

/-- Number of distinct non-null values of a column (Column Profiler).
Modelled from the spec: "unique_count counts distinct non-missing values". -/
def unique_count (c : Column) : Nat := (firstDistinct (nonMissing c)).length

/-- Missing share of a column given the table row count.  Modelled from the
spec: "missing_share = missing_count / n_rows (0 when n_rows = 0)". -/
def missingShare (n : Nat) (c : Column) : ℚ :=
  if n = 0 then 0 else (missing_count c : ℚ) / (n : ℚ)

/-- Per-column summary record.  Modelled from the spec: ColumnSummary is
exactly the fields name, type_class, missing_count, missing_share,
unique_count. -/
structure ColumnSummary where
  name : String
  type_class : TypeClass
  missing_count : Nat
  missing_share : ℚ
  unique_count : Nat
deriving DecidableEq

/-- Column Profiler: summary of one column given the table row count.
Modelled from the spec, section 4.1. -/
def summarizeColumn (n : Nat) (c : Column) : ColumnSummary :=
  { name := c.name
    type_class := c.type_class
    missing_count := missing_count c
    missing_share := missingShare n c
    unique_count := unique_count c }

/-- Dataset-level summary.  Modelled from the spec: DatasetSummary. -/
structure DatasetSummary where
  n_rows : Nat
  n_cols : Nat
  columns : List ColumnSummary
deriving DecidableEq

/-- Dataset Summarizer.  Modelled from the spec, section 4.2: one
ColumnSummary per column in table order. -/
def summarize_dataset (t : Table) : DatasetSummary :=
  { n_rows := nRows t
    n_cols := t.cols.length
    columns := t.cols.map (summarizeColumn (nRows t)) }

/-- Missingness record for one column.  Modelled from the spec: MissingTable
entries. -/
structure MissingEntry where
  missing_count : Nat
  missing_share : ℚ
deriving DecidableEq

/-- Missingness Analyzer.  Modelled from the spec, section 4.3: keyed by
every column name, in table order; share defined as 0 when n_rows = 0. -/
def missing_table (t : Table) : List (String × MissingEntry) :=
  t.cols.map fun c =>
    (c.name, { missing_count := missing_count c
               missing_share := missingShare (nRows t) c })

/-- Whether the second string is a suffix of the first, by characters. -/
def strEndsWith (s suf : String) : Bool := List.isSuffixOf suf.data s.data

/-- Identifier naming convention.  Modelled from the spec, section 4.6: the
literal token "id", or a name ending in the identifier suffix "_id". -/
def isIdName (s : String) : Bool := s == "id" || strEndsWith s "_id"

/-- Detector: some summarized column has exactly one distinct non-missing
value.  Modelled from the spec: unique_count == 1. -/
def has_constant_columns (s : DatasetSummary) : Bool :=
  s.columns.any fun c => c.unique_count == 1

/-- Detector: some non-numeric column has unique_count / n_rows strictly
above one half.  Modelled from the spec, section 4.6. -/
def has_high_cardinality_categoricals (s : DatasetSummary) : Bool :=
  s.columns.any fun c =>
    decide (c.type_class ≠ TypeClass.numeric) &&
      decide ((c.unique_count : ℚ) / (s.n_rows : ℚ) > 1 / 2)

/-- Detector: some identifier-named column has duplicates, i.e.
unique_count < n_rows.  Modelled from the spec, section 4.6. -/
def has_suspicious_id_duplicates (t : Table) : Bool :=
  t.cols.any fun c => isIdName c.name && decide (unique_count c < nRows t)

/-- Share of zero values among the non-missing entries of a column
(0 when the column has no non-missing entries). -/
def zeroShare (c : Column) : ℚ :=
  let nm := nonMissing c
  if nm.length = 0 then 0 else ((nm.count (Val.num 0) : ℚ)) / (nm.length : ℚ)

/-- Detector: some numeric column is more than half zeros among its
non-missing entries.  Modelled from the spec, section 4.6. -/
def has_many_zero_values (t : Table) : Bool :=
  t.cols.any fun c =>
    decide (c.type_class = TypeClass.numeric) && decide (zeroShare c > 1 / 2)

/-- Binary maximum of two rationals, written out so that it evaluates by
kernel reduction. -/
def qmax (a b : ℚ) : ℚ := if a ≤ b then b else a

/-- Maximum missing share over a MissingTable (0 when it is empty). -/
def max_missing_share (m : List (String × MissingEntry)) : ℚ :=
  (m.map fun e => e.2.missing_share).foldr qmax 0

/-- Engine thresholds.  Modelled from the spec: minimum-row threshold,
maximum-column threshold and missing-share threshold are configuration. -/
structure QualityConfig where
  min_rows : Nat
  max_cols : Nat
  missing_share_threshold : ℚ

/-- Default thresholds.  Modelled from the spec's design notes: a row
minimum in the tens of rows, and a missing-share cutoff tighter than the
report-time display threshold. -/
def defaultConfig : QualityConfig :=
  { min_rows := 30, max_cols := 100, missing_share_threshold := 1 / 2 }

/-- Fixed penalty of the too_few_rows detector. -/
def penalty_too_few_rows : ℚ := 1 / 10

/-- Fixed penalty of the too_many_columns detector. -/
def penalty_too_many_columns : ℚ := 1 / 10

/-- Fixed penalty of the too_many_missing detector. -/
def penalty_too_many_missing : ℚ := 1 / 5

/-- Fixed penalty of the has_constant_columns detector. -/
def penalty_constant_columns : ℚ := 1 / 10

/-- Fixed penalty of the has_high_cardinality_categoricals detector. -/
def penalty_high_cardinality : ℚ := 1 / 10

/-- Fixed penalty of the has_suspicious_id_duplicates detector. -/
def penalty_id_duplicates : ℚ := 3 / 20

/-- Fixed penalty of the has_many_zero_values detector. -/
def penalty_many_zero_values : ℚ := 1 / 10

/-- The penalty a boolean detector contributes: its fixed penalty when
triggered, 0 otherwise. -/
def boolPenalty (b : Bool) (p : ℚ) : ℚ := if b then p else 0

/-- Clamp a rational to the interval [0, 1]. -/
def clamp01 (q : ℚ) : ℚ := if q < 0 then 0 else if 1 < q then 1 else q

/-- Output record of the Quality Flag Engine.  Modelled from the spec:
QualityFlags. -/
structure QualityFlags where
  quality_score : ℚ
  max_missing_share : ℚ
  too_few_rows : Bool
  too_many_columns : Bool
  too_many_missing : Bool
  has_constant_columns : Bool
  has_high_cardinality_categoricals : Bool
  has_suspicious_id_duplicates : Bool
  has_many_zero_values : Bool
deriving DecidableEq

/-- Sum of the penalties of the triggered detectors of a QualityFlags
record. -/
def totalPenalty (f : QualityFlags) : ℚ :=
  boolPenalty f.too_few_rows penalty_too_few_rows +
  boolPenalty f.too_many_columns penalty_too_many_columns +
  boolPenalty f.too_many_missing penalty_too_many_missing +
  boolPenalty f.has_constant_columns penalty_constant_columns +
  boolPenalty f.has_high_cardinality_categoricals penalty_high_cardinality +
  boolPenalty f.has_suspicious_id_duplicates penalty_id_duplicates +
  boolPenalty f.has_many_zero_values penalty_many_zero_values

/-- Quality Flag Engine.  Modelled from the spec, section 4.6: evaluates the
seven detectors on the DatasetSummary, the MissingTable and the raw table,
and scores 1.0 minus the additive penalties of the triggered detectors,
clamped to [0, 1]. -/
def compute_quality_flags (cfg : QualityConfig) (s : DatasetSummary)
    (m : List (String × MissingEntry)) (t : Table) : QualityFlags :=
  let tfr := decide (s.n_rows < cfg.min_rows)
  let tmc := decide (s.n_cols > cfg.max_cols)
  let mms := max_missing_share m
  let tmm := decide (mms > cfg.missing_share_threshold)
  let hcc := has_constant_columns s
  let hhc := has_high_cardinality_categoricals s
  let hid := has_suspicious_id_duplicates t
  let hmz := has_many_zero_values t
  { quality_score := clamp01 (1 -
      (boolPenalty tfr penalty_too_few_rows +
       boolPenalty tmc penalty_too_many_columns +
       boolPenalty tmm penalty_too_many_missing +
       boolPenalty hcc penalty_constant_columns +
       boolPenalty hhc penalty_high_cardinality +
       boolPenalty hid penalty_id_duplicates +
       boolPenalty hmz penalty_many_zero_values))
    max_missing_share := mms
    too_few_rows := tfr
    too_many_columns := tmc
    too_many_missing := tmm
    has_constant_columns := hcc
    has_high_cardinality_categoricals := hhc
    has_suspicious_id_duplicates := hid
    has_many_zero_values := hmz }

/-- Stable insertion of a value/count pair into a list sorted by descending
count: the pair goes in front of the first strictly smaller count. -/
def insertByCount (p : Val × Nat) : List (Val × Nat) → List (Val × Nat)
  | [] => [p]
  | q :: rest => if q.2 ≤ p.2 then p :: q :: rest else q :: insertByCount p rest

/-- Stable insertion sort by descending count (first-encountered order on
ties). -/
def sortByCountDesc : List (Val × Nat) → List (Val × Nat)
  | [] => []
  | p :: rest => insertByCount p (sortByCountDesc rest)

/-- Value counts of a list: each distinct value, in first-encountered order,
with its number of occurrences. -/
def countValues (vals : List Val) : List (Val × Nat) :=
  (firstDistinct vals).map fun v => (v, vals.count v)

/-- Categorical Top-Values Analyzer.  Modelled from the spec, section 4.5:
at most max_columns non-numeric columns in table order, each contributing at
most top_k value/count pairs in descending count order, missing values
excluded before counting; top_k at most 0 yields an empty list. -/
def top_categories (t : Table) (max_columns : Nat) (top_k : Int) :
    List (String × List (Val × Nat)) :=
  ((t.cols.filter fun c => decide (c.type_class ≠ TypeClass.numeric)).take
      max_columns).map
    fun c => (c.name, (sortByCountDesc (countValues (nonMissing c))).take
                        top_k.toNat)

/-- The numeric content of a cell value, if any. -/
def Val.toNum : Val → Option ℚ
  | .num q => some q
  | _ => none

/-- The columns of a table whose declared type class is numeric. -/
def numericCols (t : Table) : List Column :=
  t.cols.filter fun c => decide (c.type_class = TypeClass.numeric)

/-- The numeric pair of a row of two columns, when both cells hold a
numeric value. -/
def pairNum (p : Option Val × Option Val) : Option (ℚ × ℚ) :=
  match p.1.bind Val.toNum, p.2.bind Val.toNum with
  | some x, some y => some (x, y)
  | _, _ => none

/-- Pairwise-complete observations of two columns: the row pairs where both
cells hold a numeric value.  Modelled from the spec, section 4.4. -/
def pairedObs (cx cy : Column) : List (ℚ × ℚ) :=
  (cx.cells.zip cy.cells).filterMap pairNum

/-- Arithmetic mean of a list of rationals (0 for the empty list). -/
def listMean (l : List ℚ) : ℚ :=
  if l.length = 0 then 0 else l.sum / (l.length : ℚ)

/-- One correlation-matrix entry in unreduced form: the centered product sum
(covariance numerator) and the two centered square sums (variance
numerators) over the pairwise-complete observations.  The Pearson
coefficient of the entry is cov / sqrt (varX * varY) when both variances are
positive, and undefined (a NaN in the original) otherwise. -/
structure CorrCell where
  cov : ℚ
  varX : ℚ
  varY : ℚ
deriving DecidableEq

/-- The correlation-matrix entry of two columns.  Modelled from the spec,
section 4.4: Pearson correlation over pairwise-complete observations. -/
def corrCell (cx cy : Column) : CorrCell :=
  let ps := pairedObs cx cy
  let mx := listMean (ps.map Prod.fst)
  let my := listMean (ps.map Prod.snd)
  { cov := (ps.map fun p => (p.1 - mx) * (p.2 - my)).sum
    varX := (ps.map fun p => (p.1 - mx) ^ 2).sum
    varY := (ps.map fun p => (p.2 - my) ^ 2).sum }

/-- Correlation Analyzer.  Modelled from the spec, section 4.4: all pairs of
numeric columns; empty when fewer than 2 numeric columns exist. -/
def correlation_matrix (t : Table) : List (String × String × CorrCell) :=
  let ncs := numericCols t
  if ncs.length < 2 then []
  else ncs.flatMap fun ci =>
    ncs.map fun cj => (ci.name, cj.name, corrCell ci cj)

/-- The real number r is the Pearson coefficient encoded by a correlation
cell: both variances are positive and r * sqrt (varX * varY) = cov.  When a
variance is 0 no real number satisfies this (the original stores NaN). -/
def IsPearson (c : CorrCell) (r : ℝ) : Prop :=
  0 < c.varX ∧ 0 < c.varY ∧
    r * Real.sqrt ((c.varX : ℝ) * (c.varY : ℝ)) = (c.cov : ℝ)

/-- The report command's selection of problematic columns by missingness:
the columns whose missing share is at least the threshold, in table order.
From src/homeworks/HW03/eda-cli/src/eda_cli/cli.py line 139 (a non-strict
comparison). -/
def problematic_missing_cols (m : List (String × MissingEntry))
    (min_missing_share : ℚ) : List String :=
  (m.filter fun e => decide (e.2.missing_share ≥ min_missing_share)).map
    Prod.fst

/-- The report command's parameter validation and missingness-listing logic,
from src/homeworks/HW03/eda-cli/src/eda_cli/cli.py lines 87-88 and 136-149:
a min_missing_share outside [0, 1] is rejected before the CSV is loaded
(the loading step is passed in as an Except value, and its outcome is not
consulted in that case); otherwise the problematic columns of the loaded
table's missing table are produced. -/
def report (min_missing_share : ℚ) (load : Except String Table) :
    Except String (List String) :=
  if 0 ≤ min_missing_share ∧ min_missing_share ≤ 1 then
    load.bind fun t =>
      Except.ok (problematic_missing_cols (missing_table t) min_missing_share)
  else Except.error "--min-missing-share must be between 0.0 and 1.0"

/-! ### Example tables and configurations (mirroring the tests) -/

/-- A permissive configuration used to instantiate universally quantified
claims on small tables. -/
def exampleConfig : QualityConfig :=
  { min_rows := 0, max_cols := 100, missing_share_threshold := 1 / 2 }

/-- A clean single-column numeric table triggering no detector. -/
def tableAllClean : Table :=
  ⟨[⟨"a", TypeClass.numeric,
     [some (Val.num 1), some (Val.num 2), some (Val.num 3)]⟩]⟩

/-- A table triggering the constant-column, high-cardinality, id-duplicate,
many-zero and too-many-missing detectors simultaneously. -/
def tableFiveFlags : Table :=
  ⟨[⟨"const", TypeClass.textual,
     [some (Val.str "X"), some (Val.str "X"), some (Val.str "X"),
      some (Val.str "X")]⟩,
    ⟨"hc", TypeClass.textual,
     [some (Val.str "a"), some (Val.str "b"), some (Val.str "c"),
      some (Val.str "d")]⟩,
    ⟨"user_id", TypeClass.numeric,
     [some (Val.num 1), some (Val.num 1), some (Val.num 2),
      some (Val.num 2)]⟩,
    ⟨"z", TypeClass.numeric,
     [some (Val.num 0), some (Val.num 0), some (Val.num 0),
      some (Val.num 1)]⟩,
    ⟨"m", TypeClass.numeric, [none, none, none, some (Val.num 1)]⟩]⟩

/-- A user_id column with a duplicate, as in
test_quality_flags_suspicious_id_duplicates. -/
def tableUserIdDup : Table :=
  ⟨[⟨"user_id", TypeClass.numeric,
     [some (Val.num 1), some (Val.num 2), some (Val.num 2),
      some (Val.num 4)]⟩,
    ⟨"value", TypeClass.numeric,
     [some (Val.num 10), some (Val.num 20), some (Val.num 30),
      some (Val.num 40)]⟩]⟩

/-- An order_id column with no duplicate, as in
test_quality_flags_no_id_duplicates. -/
def tableOrderId : Table :=
  ⟨[⟨"order_id", TypeClass.numeric,
     [some (Val.num 101), some (Val.num 102), some (Val.num 103),
      some (Val.num 104)]⟩,
    ⟨"value", TypeClass.numeric,
     [some (Val.num 1), some (Val.num 2), some (Val.num 3),
      some (Val.num 4)]⟩]⟩

/-- Duplicates only in columns without identifier-style names, as in
test_quality_flags_id_duplicates_ignored_if_no_id_column. -/
def tableNoIdName : Table :=
  ⟨[⟨"x", TypeClass.numeric,
     [some (Val.num 1), some (Val.num 2), some (Val.num 2),
      some (Val.num 3)]⟩,
    ⟨"y", TypeClass.textual,
     [some (Val.str "a"), some (Val.str "b"), some (Val.str "c"),
      some (Val.str "d")]⟩]⟩

/-- Ten rows, five distinct categorical values: unique ratio exactly one
half, as in test_quality_flags_high_cardinality_not_triggered_on_small_dataset. -/
def tableTenRowsFiveDistinct : Table :=
  ⟨[⟨"small_cat", TypeClass.textual,
     [some (Val.str "v0"), some (Val.str "v1"), some (Val.str "v2"),
      some (Val.str "v3"), some (Val.str "v4"), some (Val.str "v0"),
      some (Val.str "v1"), some (Val.str "v2"), some (Val.str "v3"),
      some (Val.str "v4")]⟩]⟩

/-- Ten rows, six distinct categorical values: unique ratio strictly above
one half. -/
def tableTenRowsSixDistinct : Table :=
  ⟨[⟨"small_cat", TypeClass.textual,
     [some (Val.str "v0"), some (Val.str "v1"), some (Val.str "v2"),
      some (Val.str "v3"), some (Val.str "v4"), some (Val.str "v5"),
      some (Val.str "v0"), some (Val.str "v1"), some (Val.str "v2"),
      some (Val.str "v3")]⟩]⟩

/-- A numeric column of five zeros. -/
def tableAllZeros : Table :=
  ⟨[⟨"b", TypeClass.numeric,
     [some (Val.num 0), some (Val.num 0), some (Val.num 0), some (Val.num 0),
      some (Val.num 0)]⟩]⟩

/-- A numeric column with four zeros among five values. -/
def tableFourZeros : Table :=
  ⟨[⟨"a", TypeClass.numeric,
     [some (Val.num 0), some (Val.num 0), some (Val.num 0), some (Val.num 0),
      some (Val.num 1)]⟩]⟩

/-- A numeric column with a single zero among five values, as in
test_quality_flags_not_many_zeros. -/
def tableRamp : Table :=
  ⟨[⟨"a", TypeClass.numeric,
     [some (Val.num 0), some (Val.num 1), some (Val.num 2), some (Val.num 3),
      some (Val.num 4)]⟩]⟩

/-- The analog of the tests' _sample_df: age and height numeric, city
textual, with one missing age and one missing city. -/
def sampleTable : Table :=
  ⟨[⟨"age", TypeClass.numeric,
     [some (Val.num 10), some (Val.num 20), some (Val.num 30), none]⟩,
    ⟨"height", TypeClass.numeric,
     [some (Val.num 140), some (Val.num 150), some (Val.num 160),
      some (Val.num 170)]⟩,
    ⟨"city", TypeClass.textual,
     [some (Val.str "A"), some (Val.str "B"), some (Val.str "A"), none]⟩]⟩

/-- A table with columns but zero rows. -/
def zeroRowTable : Table :=
  ⟨[⟨"a", TypeClass.numeric, []⟩, ⟨"b", TypeClass.textual, []⟩]⟩

/-- The tests' city column: values A, B, A and one missing. -/
def cityTable : Table :=
  ⟨[⟨"city", TypeClass.textual,
     [some (Val.str "A"), some (Val.str "B"), some (Val.str "A"), none]⟩]⟩

/-- A two-point numeric column named x. -/
def xcol : Column :=
  ⟨"x", TypeClass.numeric, [some (Val.num 1), some (Val.num 2)]⟩

/-- A two-point numeric column named y. -/
def ycol : Column :=
  ⟨"y", TypeClass.numeric, [some (Val.num 3), some (Val.num 1)]⟩

/-- A table with a single numeric column. -/
def tableOneNumeric : Table := ⟨[xcol]⟩

/-- A table with two numeric columns. -/
def tableTwoNumeric : Table := ⟨[xcol, ycol]⟩

/-- A table whose single column has missing share exactly one quarter. -/
def quarterMissingTable : Table :=
  ⟨[⟨"m", TypeClass.numeric,
     [none, some (Val.num 1), some (Val.num 1), some (Val.num 1)]⟩]⟩

/-! ### Helper lemmas -/
theorem clamp01_nonneg (q : ℚ) : 0 ≤ clamp01 q := by
  unfold clamp01; split_ifs <;> linarith

theorem clamp01_le_one (q : ℚ) : clamp01 q ≤ 1 := by
  unfold clamp01; split_ifs <;> linarith

theorem clamp01_lt {q c : ℚ} (h0 : 0 < c) (h1 : c ≤ 1) (hq : q < c) :
    clamp01 q < c := by
  unfold clamp01; split_ifs <;> linarith

theorem boolPenalty_nonneg {p : ℚ} (b : Bool) (hp : 0 ≤ p) :
    0 ≤ boolPenalty b p := by
  cases b
  · simp [boolPenalty]
  · simpa [boolPenalty] using hp

theorem filter_none_add_filterMap_id (l : List (Option Val)) :
    (l.filter Option.isNone).length + (l.filterMap id).length = l.length := by
  induction l with
  | nil => rfl
  | cons a l ih =>
    cases a <;> simp [List.filter_cons, List.filterMap_cons] <;> omega

theorem firstDistinct_length_le (l : List Val) :
    (firstDistinct l).length ≤ l.length := by
  calc (firstDistinct l).length
      = l.reverse.dedup.length := List.length_reverse _
    _ ≤ l.reverse.length := (List.dedup_sublist _).length_le
    _ = l.length := List.length_reverse _

theorem mem_firstDistinct {a : Val} {l : List Val} :
    a ∈ firstDistinct l ↔ a ∈ l := by
  simp [firstDistinct, List.mem_reverse, List.mem_dedup]

/-! ### Claim theorems -/

/-- C1: compute_quality_flags yields a quality_score in [0, 1] equal to 1.0
minus the fixed penalty of each triggered detector, clamped to [0, 1]; with
no detector triggered the score is exactly 1.0, and whenever the constant,
high-cardinality, id-duplicate, many-zero and too-many-missing detectors all
trigger, the score is strictly below 0.5. -/
theorem quality_score_bounded_penalty_sum (cfg : QualityConfig)
    (s : DatasetSummary) (m : List (String × MissingEntry)) (t : Table) :
    (0 ≤ (compute_quality_flags cfg s m t).quality_score ∧
      (compute_quality_flags cfg s m t).quality_score ≤ 1) ∧
    (compute_quality_flags cfg s m t).quality_score =
      clamp01 (1 - totalPenalty (compute_quality_flags cfg s m t)) ∧
    (((compute_quality_flags cfg s m t).too_few_rows = false ∧
      (compute_quality_flags cfg s m t).too_many_columns = false ∧
      (compute_quality_flags cfg s m t).too_many_missing = false ∧
      (compute_quality_flags cfg s m t).has_constant_columns = false ∧
      (compute_quality_flags cfg s m t).has_high_cardinality_categoricals
        = false ∧
      (compute_quality_flags cfg s m t).has_suspicious_id_duplicates = false ∧
      (compute_quality_flags cfg s m t).has_many_zero_values = false) →
      (compute_quality_flags cfg s m t).quality_score = 1) ∧
    (((compute_quality_flags cfg s m t).has_constant_columns = true ∧
      (compute_quality_flags cfg s m t).has_high_cardinality_categoricals
        = true ∧
      (compute_quality_flags cfg s m t).has_suspicious_id_duplicates = true ∧
      (compute_quality_flags cfg s m t).has_many_zero_values = true ∧
      (compute_quality_flags cfg s m t).too_many_missing = true) →
      (compute_quality_flags cfg s m t).quality_score < 1 / 2) := by
  have heq : (compute_quality_flags cfg s m t).quality_score =
      clamp01 (1 - totalPenalty (compute_quality_flags cfg s m t)) := rfl
  refine ⟨⟨?_, ?_⟩, heq, ?_, ?_⟩
  · rw [heq]; exact clamp01_nonneg _
  · rw [heq]; exact clamp01_le_one _
  · rintro ⟨h1, h2, h3, h4, h5, h6, h7⟩
    rw [heq]
    have htp : totalPenalty (compute_quality_flags cfg s m t) = 0 := by
      simp [totalPenalty, h1, h2, h3, h4, h5, h6, h7, boolPenalty]
    rw [htp]; norm_num [clamp01]
  · rintro ⟨h1, h2, h3, h4, h5⟩
    rw [heq]
    refine clamp01_lt (by norm_num) (by norm_num) ?_
    have hge : 13 / 20 ≤ totalPenalty (compute_quality_flags cfg s m t) := by
      cases hf : (compute_quality_flags cfg s m t).too_few_rows <;>
        cases hg : (compute_quality_flags cfg s m t).too_many_columns <;>
          simp [totalPenalty, boolPenalty, h1, h2, h3, h4, h5, hf, hg,
            penalty_too_few_rows, penalty_too_many_columns,
            penalty_too_many_missing, penalty_constant_columns,
            penalty_high_cardinality, penalty_id_duplicates,
            penalty_many_zero_values] <;> norm_num
    linarith

unseal Rat.add Rat.mul Rat.sub Rat.inv in
/-- C1 witness: on a clean three-row table no detector triggers and the
score is 1; on a table triggering the five content detectors the score is
strictly below 0.5. -/
theorem quality_score_bounded_penalty_sum_witness :
    (compute_quality_flags exampleConfig (summarize_dataset tableAllClean)
        (missing_table tableAllClean) tableAllClean).quality_score = 1 ∧
    (compute_quality_flags exampleConfig (summarize_dataset tableFiveFlags)
        (missing_table tableFiveFlags) tableFiveFlags).quality_score
      < 1 / 2 :=
  ⟨(quality_score_bounded_penalty_sum exampleConfig
      (summarize_dataset tableAllClean) (missing_table tableAllClean)
      tableAllClean).2.2.1 (by decide),
   (quality_score_bounded_penalty_sum exampleConfig
      (summarize_dataset tableFiveFlags) (missing_table tableFiveFlags)
      tableFiveFlags).2.2.2 (by decide)⟩

/-- C2: has_suspicious_id_duplicates is true exactly when some column named
"id" or ending in "_id" has fewer distinct non-missing values than the table
has rows; with no identifier-named column it is false regardless of
duplicates elsewhere.  The three test scenarios evaluate as the tests
assert. -/
theorem suspicious_id_duplicates_iff (t : Table) :
    (has_suspicious_id_duplicates t = true ↔
      ∃ c ∈ t.cols, (c.name = "id" ∨ strEndsWith c.name "_id" = true) ∧
        unique_count c < nRows t) ∧
    has_suspicious_id_duplicates tableUserIdDup = true ∧
    has_suspicious_id_duplicates tableOrderId = false ∧
    has_suspicious_id_duplicates tableNoIdName = false := by
  refine ⟨?_, by decide, by decide, by decide⟩
  simp [has_suspicious_id_duplicates, isIdName, List.any_eq_true,
    Bool.and_eq_true, Bool.or_eq_true, beq_iff_eq, decide_eq_true_eq]

unseal Rat.add Rat.mul Rat.sub Rat.inv in
/-- C3: has_high_cardinality_categoricals is true exactly when some
non-numeric column has unique_count / n_rows strictly above one half;
numeric columns are never considered, and the boundary is strict (5 distinct
in 10 rows does not trigger, 6 distinct in 10 rows does). -/
theorem high_cardinality_iff (t : Table) :
    (has_high_cardinality_categoricals (summarize_dataset t) = true ↔
      ∃ c ∈ t.cols, c.type_class ≠ TypeClass.numeric ∧
        (unique_count c : ℚ) / (nRows t : ℚ) > 1 / 2) ∧
    has_high_cardinality_categoricals
      (summarize_dataset tableTenRowsFiveDistinct) = false ∧
    has_high_cardinality_categoricals
      (summarize_dataset tableTenRowsSixDistinct) = true := by
  refine ⟨?_, by decide, by decide⟩
  simp [has_high_cardinality_categoricals, summarize_dataset,
    summarizeColumn, List.any_map, List.any_eq_true, Bool.and_eq_true,
    decide_eq_true_eq, Function.comp]

unseal Rat.add Rat.mul Rat.sub Rat.inv in
/-- C4: has_many_zero_values is true exactly when some numeric column has a
share of zero-valued non-missing entries strictly above one half; all-zero
and four-of-five-zero columns trigger it, a single zero among five values
does not. -/
theorem many_zero_values_iff (t : Table) :
    (has_many_zero_values t = true ↔
      ∃ c ∈ t.cols, c.type_class = TypeClass.numeric ∧
        zeroShare c > 1 / 2) ∧
    has_many_zero_values tableAllZeros = true ∧
    has_many_zero_values tableFourZeros = true ∧
    has_many_zero_values tableRamp = false := by
  refine ⟨?_, by decide, by decide, by decide⟩
  simp [has_many_zero_values, List.any_eq_true, Bool.and_eq_true,
    decide_eq_true_eq]

/-- C9: every engine component is a pure function of its declared inputs,
so two invocations on the same table and configuration produce identical
outputs; in particular summarize_dataset is idempotent in this sense. -/
theorem engine_deterministic (t : Table) (cfg : QualityConfig)
    (max_columns : Nat) (top_k : Int) :
    summarize_dataset t = summarize_dataset t ∧
    missing_table t = missing_table t ∧
    correlation_matrix t = correlation_matrix t ∧
    top_categories t max_columns top_k = top_categories t max_columns top_k ∧
    compute_quality_flags cfg (summarize_dataset t) (missing_table t) t =
      compute_quality_flags cfg (summarize_dataset t) (missing_table t) t :=
  ⟨rfl, rfl, rfl, rfl, rfl⟩

/-- C5: each column of the dataset summary carries exactly name, type_class,
missing_count, missing_share and unique_count, where missing_count is the
number of null cells, missing_share is missing_count / n_rows (0 when
n_rows = 0), and unique_count is the number of distinct non-null values
(bounded by the non-null count; null and non-null cells partition the
rows). -/
theorem dataset_summary_fields (t : Table) (hwf : WF t) :
    (summarize_dataset t).n_rows = nRows t ∧
    (summarize_dataset t).n_cols = t.cols.length ∧
    (summarize_dataset t).columns.length = t.cols.length ∧
    ∀ i (hi : i < t.cols.length)
      (hj : i < (summarize_dataset t).columns.length),
      ((summarize_dataset t).columns.get ⟨i, hj⟩).name =
        (t.cols.get ⟨i, hi⟩).name ∧
      ((summarize_dataset t).columns.get ⟨i, hj⟩).type_class =
        (t.cols.get ⟨i, hi⟩).type_class ∧
      ((summarize_dataset t).columns.get ⟨i, hj⟩).missing_count =
        ((t.cols.get ⟨i, hi⟩).cells.filter Option.isNone).length ∧
      ((summarize_dataset t).columns.get ⟨i, hj⟩).missing_share =
        (if nRows t = 0 then 0 else
          (((summarize_dataset t).columns.get ⟨i, hj⟩).missing_count : ℚ) /
            (nRows t : ℚ)) ∧
      ((summarize_dataset t).columns.get ⟨i, hj⟩).unique_count =
        (firstDistinct (nonMissing (t.cols.get ⟨i, hi⟩))).length ∧
      ((summarize_dataset t).columns.get ⟨i, hj⟩).missing_count +
        (nonMissing (t.cols.get ⟨i, hi⟩)).length = nRows t ∧
      ((summarize_dataset t).columns.get ⟨i, hj⟩).unique_count ≤
        (nonMissing (t.cols.get ⟨i, hi⟩)).length := by
  refine ⟨rfl, rfl, by simp [summarize_dataset], ?_⟩
  intro i hi hj
  have hget : (summarize_dataset t).columns.get ⟨i, hj⟩ =
      summarizeColumn (nRows t) (t.cols.get ⟨i, hi⟩) := by
    simp [summarize_dataset]
  rw [hget]
  refine ⟨rfl, rfl, rfl, rfl, rfl, ?_, ?_⟩
  · have hc : (t.cols.get ⟨i, hi⟩) ∈ t.cols := List.get_mem t.cols i hi
    have hlen := hwf.lens _ hc
    have := filter_none_add_filterMap_id (t.cols.get ⟨i, hi⟩).cells
    simp only [summarizeColumn, missing_count, nonMissing]
    omega
  · exact firstDistinct_length_le _

/-- C5 witness: the sample table (one missing age, one missing city)
satisfies the Table invariant and its summary has the stated shape. -/
theorem dataset_summary_fields_witness :
    (summarize_dataset sampleTable).n_rows = nRows sampleTable ∧
    (summarize_dataset sampleTable).columns.length =
      sampleTable.cols.length :=
  ⟨(dataset_summary_fields sampleTable ⟨by decide, by decide⟩).1,
   (dataset_summary_fields sampleTable ⟨by decide, by decide⟩).2.2.1⟩

/-- C6: for a table with zero rows, missing_table still lists every column,
each with missing_count 0 and missing_share a defined 0. -/
theorem missing_table_zero_rows (t : Table) (hwf : WF t)
    (h0 : nRows t = 0) :
    (missing_table t).map Prod.fst = t.cols.map Column.name ∧
    ∀ e ∈ missing_table t, e.2.missing_count = 0 ∧ e.2.missing_share = 0 := by
  constructor
  · simp [missing_table]
  · intro e he
    obtain ⟨c, hc, rfl⟩ := List.mem_map.mp he
    have hlen : c.cells.length = 0 := by rw [hwf.lens c hc, h0]
    have hnil : c.cells = [] := List.length_eq_zero.mp hlen
    constructor
    · simp [missing_count, hnil]
    · simp [missingShare, h0]

/-- C6 witness: a two-column zero-row table is well-formed and yields the
stated missing table. -/
theorem missing_table_zero_rows_witness :
    (missing_table zeroRowTable).map Prod.fst =
      zeroRowTable.cols.map Column.name ∧
    ∀ e ∈ missing_table zeroRowTable,
      e.2.missing_count = 0 ∧ e.2.missing_share = 0 :=
  missing_table_zero_rows zeroRowTable ⟨by decide, by decide⟩ (by decide)

/-- C10: the report command lists a column as problematic by missingness
exactly when its missing share is at least (non-strictly) the
min_missing_share parameter, while the engine's too_many_missing detector
requires the maximum missing share to strictly exceed its threshold; and a
min_missing_share outside [0, 1] is rejected with a parameter error before
the load outcome is consulted. -/
theorem report_missing_share_comparisons (q : ℚ)
    (load : Except String Table) :
    (¬ (0 ≤ q ∧ q ≤ 1) → report q load =
      Except.error "--min-missing-share must be between 0.0 and 1.0") ∧
    (∀ t, 0 ≤ q → q ≤ 1 → load = Except.ok t →
      report q load =
        Except.ok (problematic_missing_cols (missing_table t) q) ∧
      ∀ n, n ∈ problematic_missing_cols (missing_table t) q ↔
        ∃ e ∈ missing_table t, e.1 = n ∧ q ≤ e.2.missing_share) ∧
    (∀ cfg s m t2,
      (compute_quality_flags cfg s m t2).too_many_missing = true ↔
        max_missing_share m > cfg.missing_share_threshold) := by
  refine ⟨?_, ?_, ?_⟩
  · intro hq
    simp [report, hq]
  · intro t hq0 hq1 hload
    subst hload
    constructor
    · simp [report, hq0, hq1, Except.bind]
    · intro n
      constructor
      · intro hn
        obtain ⟨e, he, rfl⟩ := List.mem_map.mp hn
        obtain ⟨hmem, hp⟩ := List.mem_filter.mp he
        exact ⟨e, hmem, rfl, of_decide_eq_true hp⟩
      · rintro ⟨e, hmem, rfl, hge⟩
        exact List.mem_map.mpr
          ⟨e, List.mem_filter.mpr ⟨hmem, decide_eq_true hge⟩, rfl⟩
  · intro cfg s m t2
    simp [compute_quality_flags, decide_eq_true_eq]

unseal Rat.add Rat.mul Rat.sub Rat.inv in
/-- C10 witness: min_missing_share 2 is rejected whatever the load outcome;
with min_missing_share 1/4 the column whose share is exactly 1/4 is listed
(the comparison is non-strict), while the detector with threshold 1/4 is an
equivalence requiring a strictly larger maximum share. -/
theorem report_missing_share_comparisons_witness :
    report 2 (Except.error "boom") =
      Except.error "--min-missing-share must be between 0.0 and 1.0" ∧
    report (1 / 4) (Except.ok quarterMissingTable) =
      Except.ok (problematic_missing_cols
        (missing_table quarterMissingTable) (1 / 4)) ∧
    ("m" ∈ problematic_missing_cols
        (missing_table quarterMissingTable) (1 / 4) ↔
      ∃ e ∈ missing_table quarterMissingTable,
        e.1 = "m" ∧ 1 / 4 ≤ e.2.missing_share) ∧
    ((compute_quality_flags ⟨0, 100, 1 / 4⟩
        (summarize_dataset quarterMissingTable)
        (missing_table quarterMissingTable)
        quarterMissingTable).too_many_missing = true ↔
      max_missing_share (missing_table quarterMissingTable) > 1 / 4) :=
  ⟨(report_missing_share_comparisons 2 (Except.error "boom")).1 (by decide),
   ((report_missing_share_comparisons (1 / 4)
      (Except.ok quarterMissingTable)).2.1 quarterMissingTable (by decide)
      (by decide) rfl).1,
   ((report_missing_share_comparisons (1 / 4)
      (Except.ok quarterMissingTable)).2.1 quarterMissingTable (by decide)
      (by decide) rfl).2 "m",
   (report_missing_share_comparisons (1 / 4)
      (Except.ok quarterMissingTable)).2.2 ⟨0, 100, 1 / 4⟩
      (summarize_dataset quarterMissingTable)
      (missing_table quarterMissingTable) quarterMissingTable⟩

theorem mem_insertByCount {a p : Val × Nat} {l : List (Val × Nat)} :
    a ∈ insertByCount p l ↔ a = p ∨ a ∈ l := by
  induction l with
  | nil => simp [insertByCount]
  | cons q rest ih =>
    by_cases h : q.2 ≤ p.2
    · simp [insertByCount, h]
    · simp [insertByCount, h, ih]
      tauto

theorem mem_sortByCountDesc {a : Val × Nat} {l : List (Val × Nat)} :
    a ∈ sortByCountDesc l ↔ a ∈ l := by
  induction l with
  | nil => simp [sortByCountDesc]
  | cons p rest ih =>
    simp [sortByCountDesc, mem_insertByCount, ih]

theorem length_insertByCount (p : Val × Nat) (l : List (Val × Nat)) :
    (insertByCount p l).length = l.length + 1 := by
  induction l with
  | nil => rfl
  | cons q rest ih =>
    by_cases h : q.2 ≤ p.2
    · simp [insertByCount, h]
    · simp [insertByCount, h, ih]

theorem length_sortByCountDesc (l : List (Val × Nat)) :
    (sortByCountDesc l).length = l.length := by
  induction l with
  | nil => rfl
  | cons p rest ih =>
    simp [sortByCountDesc, length_insertByCount, ih]

theorem pairwise_insertByCount {p : Val × Nat} {l : List (Val × Nat)}
    (h : List.Pairwise (fun a b => b.2 ≤ a.2) l) :
    List.Pairwise (fun a b => b.2 ≤ a.2) (insertByCount p l) := by
  induction l with
  | nil => simp [insertByCount]
  | cons q rest ih =>
    rcases List.pairwise_cons.mp h with ⟨hq, hrest⟩
    by_cases hc : q.2 ≤ p.2
    · rw [insertByCount, if_pos hc]
      refine List.pairwise_cons.mpr ⟨?_, h⟩
      intro x hx
      rcases List.mem_cons.mp hx with rfl | hx
      · exact hc
      · exact le_trans (hq x hx) hc
    · rw [insertByCount, if_neg hc]
      refine List.pairwise_cons.mpr ⟨?_, ih hrest⟩
      intro x hx
      rcases mem_insertByCount.mp hx with rfl | hx
      · exact le_of_not_le hc
      · exact hq x hx

theorem sorted_sortByCountDesc (l : List (Val × Nat)) :
    List.Pairwise (fun a b => b.2 ≤ a.2) (sortByCountDesc l) := by
  induction l with
  | nil => simp [sortByCountDesc]
  | cons p rest ih => exact pairwise_insertByCount ih

theorem mem_countValues {p : Val × Nat} {vals : List Val}
    (h : p ∈ countValues vals) :
    p.1 ∈ vals ∧ p.2 = vals.count p.1 := by
  obtain ⟨v, hv, rfl⟩ := List.mem_map.mp h
  exact ⟨mem_firstDistinct.mp hv, rfl⟩

theorem countValues_ne_nil {vals : List Val} (h : vals ≠ []) :
    countValues vals ≠ [] := by
  obtain ⟨a, ha⟩ := List.exists_mem_of_ne_nil vals h
  exact List.ne_nil_of_mem
    (List.mem_map.mpr ⟨a, mem_firstDistinct.mpr ha, rfl⟩)

/-- C8: top_categories covers exactly the first max_columns non-numeric
columns in table order; each entry has at most top_k value/count pairs, in
descending count order, drawn from the column's non-missing values with
their true counts; a column with no non-missing values still appears, with
an empty list; top_k at most 0 gives every column an empty list; and the
city example from the tests evaluates to a single entry with the two
non-null values. -/
theorem top_categories_shape (t : Table) (max_columns : Nat) (top_k : Int) :
    (top_categories t max_columns top_k).map Prod.fst =
      ((t.cols.filter fun c =>
        decide (c.type_class ≠ TypeClass.numeric)).take max_columns).map
        Column.name ∧
    (top_categories t max_columns top_k).length ≤ max_columns ∧
    (∀ e ∈ top_categories t max_columns top_k,
      e.2.length ≤ top_k.toNat) ∧
    (∀ e ∈ top_categories t max_columns top_k,
      List.Pairwise (fun a b => b.2 ≤ a.2) e.2) ∧
    (∀ e ∈ top_categories t max_columns top_k,
      ∃ c ∈ t.cols, c.type_class ≠ TypeClass.numeric ∧ c.name = e.1 ∧
        (∀ p ∈ e.2, p.1 ∈ nonMissing c ∧ p.2 = (nonMissing c).count p.1) ∧
        (nonMissing c = [] → e.2 = []) ∧
        (nonMissing c ≠ [] → 0 < top_k → e.2 ≠ [])) ∧
    (top_k ≤ 0 → ∀ e ∈ top_categories t max_columns top_k, e.2 = []) ∧
    top_categories cityTable 5 2 =
      [("city", [(Val.str "A", 2), (Val.str "B", 1)])] := by
  refine ⟨?_, ?_, ?_, ?_, ?_, ?_, by decide⟩
  · simp only [top_categories, List.map_map]
    rfl
  · calc (top_categories t max_columns top_k).length
        = ((t.cols.filter fun c =>
            decide (c.type_class ≠ TypeClass.numeric)).take
            max_columns).length := by simp [top_categories]
      _ ≤ max_columns := by
            rw [List.length_take]; exact Nat.min_le_left _ _
  · intro e he
    obtain ⟨c, _, rfl⟩ := List.mem_map.mp he
    exact List.length_take_le _ _
  · intro e he
    obtain ⟨c, _, rfl⟩ := List.mem_map.mp he
    exact (sorted_sortByCountDesc _).sublist (List.take_sublist _ _)
  · intro e he
    obtain ⟨c, hc, rfl⟩ := List.mem_map.mp he
    have hcf := List.mem_of_mem_take hc
    obtain ⟨hmem, hpred⟩ := List.mem_filter.mp hcf
    refine ⟨c, hmem, of_decide_eq_true hpred, rfl, ?_, ?_, ?_⟩
    · intro p hp
      have hp2 : p ∈ sortByCountDesc (countValues (nonMissing c)) :=
        List.mem_of_mem_take hp
      exact mem_countValues (mem_sortByCountDesc.mp hp2)
    · intro hnil
      simp [hnil, countValues, firstDistinct, sortByCountDesc]
    · intro hne hk
      have h1 : countValues (nonMissing c) ≠ [] := countValues_ne_nil hne
      have h3 : top_k.toNat ≠ 0 := by omega
      intro habs
      have hlen : min top_k.toNat (countValues (nonMissing c)).length = 0 := by
        simpa [List.length_take, length_sortByCountDesc]
          using congrArg List.length habs
      have h1len : (countValues (nonMissing c)).length ≠ 0 := by
        simpa [List.length_eq_zero] using h1
      omega
  · intro hk e he
    obtain ⟨c, _, rfl⟩ := List.mem_map.mp he
    have : top_k.toNat = 0 := by omega
    simp [this]

/-- C8 witness: on the city example, the entry has at most 2 pairs, and
with top_k = -1 the city entry's list is empty. -/
theorem top_categories_shape_witness :
    (("city", [(Val.str "A", 2), (Val.str "B", 1)]) :
      String × List (Val × Nat)).2.length ≤ (2 : Int).toNat ∧
    (("city", ([] : List (Val × Nat))) : String × List (Val × Nat)).2 = [] :=
  ⟨(top_categories_shape cityTable 5 2).2.2.1
      ("city", [(Val.str "A", 2), (Val.str "B", 1)]) (by decide),
   (top_categories_shape cityTable 5 (-1)).2.2.2.2.2.1 (by decide)
      ("city", []) (by decide)⟩

theorem list_sum_map_eq (l : List (ℚ × ℚ)) (f : ℚ × ℚ → ℚ) :
    (l.map f).sum = ∑ i : Fin l.length, f (l.get i) := by
  conv_lhs => rw [← List.ofFn_get l]
  rw [List.map_ofFn, List.sum_ofFn]
  rfl

theorem listCS (l : List (ℚ × ℚ)) :
    ((l.map fun p => p.1 * p.2).sum) ^ 2 ≤
      ((l.map fun p => p.1 ^ 2).sum) * ((l.map fun p => p.2 ^ 2).sum) := by
  rw [list_sum_map_eq, list_sum_map_eq, list_sum_map_eq]
  exact Finset.sum_mul_sq_le_sq_mul_sq Finset.univ
    (fun i => (l.get i).1) (fun i => (l.get i).2)

theorem corrCell_cov_sq_le (cx cy : Column) :
    (corrCell cx cy).cov ^ 2 ≤
      (corrCell cx cy).varX * (corrCell cx cy).varY := by
  simp only [corrCell]
  have h := listCS ((pairedObs cx cy).map fun p =>
    (p.1 - listMean ((pairedObs cx cy).map Prod.fst),
     p.2 - listMean ((pairedObs cx cy).map Prod.snd)))
  simpa [List.map_map, Function.comp] using h

theorem corrCell_varX_nonneg (cx cy : Column) :
    0 ≤ (corrCell cx cy).varX := by
  simp only [corrCell]
  refine List.sum_nonneg ?_
  intro x hx
  obtain ⟨p, _, rfl⟩ := List.mem_map.mp hx
  positivity

theorem pairNum_swap (p : Option Val × Option Val) :
    pairNum (Prod.swap p) = (pairNum p).map Prod.swap := by
  obtain ⟨a, b⟩ := p
  cases ha : a.bind Val.toNum <;> cases hb : b.bind Val.toNum <;>
    simp [pairNum, ha, hb]

theorem pairedObs_swap (cx cy : Column) :
    pairedObs cy cx = (pairedObs cx cy).map Prod.swap := by
  unfold pairedObs
  rw [← List.zip_swap cx.cells cy.cells, List.filterMap_map,
    List.map_filterMap]
  congr 1
  funext p
  simpa [Function.comp] using pairNum_swap p

theorem corrCell_symm (cx cy : Column) :
    corrCell cy cx =
      ⟨(corrCell cx cy).cov, (corrCell cx cy).varY,
       (corrCell cx cy).varX⟩ := by
  simp only [corrCell, pairedObs_swap cx cy, List.map_map]
  have hfst : (Prod.fst ∘ Prod.swap : ℚ × ℚ → ℚ) = Prod.snd := by
    funext p; rfl
  have hsnd : (Prod.snd ∘ Prod.swap : ℚ × ℚ → ℚ) = Prod.fst := by
    funext p; rfl
  rw [hfst, hsnd]
  simp only [CorrCell.mk.injEq]
  refine ⟨?_, ?_, ?_⟩
  · refine congrArg List.sum (List.map_congr_left fun p _ => ?_)
    simp only [Function.comp_apply, Prod.fst_swap, Prod.snd_swap]
    ring
  · refine congrArg List.sum (List.map_congr_left fun p _ => ?_)
    simp only [Function.comp_apply, Prod.fst_swap, Prod.snd_swap]
  · refine congrArg List.sum (List.map_congr_left fun p _ => ?_)
    simp only [Function.comp_apply, Prod.fst_swap, Prod.snd_swap]

theorem zip_self_map (l : List (Option Val)) :
    l.zip l = l.map fun a => (a, a) := by
  induction l with
  | nil => rfl
  | cons a l ih => simp [List.zip_cons_cons, ih]

theorem pairedObs_self (cx : Column) :
    pairedObs cx cx =
      (cx.cells.filterMap fun v => v.bind Val.toNum).map fun q => (q, q) := by
  unfold pairedObs
  rw [zip_self_map, List.filterMap_map, List.map_filterMap]
  congr 1
  funext v
  cases h : v.bind Val.toNum <;> simp [pairNum, Function.comp, h]

theorem corrCell_self (cx : Column) :
    (corrCell cx cx).cov = (corrCell cx cx).varX ∧
      (corrCell cx cx).varX = (corrCell cx cx).varY := by
  simp only [corrCell, pairedObs_self, List.map_map]
  have h1 : (Prod.fst ∘ fun q : ℚ => (q, q)) = id := rfl
  have h2 : (Prod.snd ∘ fun q : ℚ => (q, q)) = id := rfl
  rw [h1, h2, List.map_id]
  constructor
  · refine congrArg List.sum (List.map_congr_left fun q _ => ?_)
    simp only [Function.comp_apply]
    ring
  · refine congrArg List.sum (List.map_congr_left fun q _ => ?_)
    simp only [Function.comp_apply]

theorem isPearson_diag (cx : Column) (h : 0 < (corrCell cx cx).varX) :
    IsPearson (corrCell cx cx) 1 := by
  obtain ⟨hcv, hvv⟩ := corrCell_self cx
  refine ⟨h, by rwa [← hvv], ?_⟩
  rw [one_mul, ← hvv]
  have h0 : (0 : ℝ) ≤ ((corrCell cx cx).varX : ℝ) := by exact_mod_cast h.le
  rw [Real.sqrt_mul_self h0]
  exact_mod_cast hcv.symm

theorem isPearson_bounds {cell : CorrCell}
    (hcs : cell.cov ^ 2 ≤ cell.varX * cell.varY) {r : ℝ}
    (h : IsPearson cell r) : -1 ≤ r ∧ r ≤ 1 := by
  obtain ⟨hx, hy, hr⟩ := h
  have hxR : (0 : ℝ) < (cell.varX : ℝ) := by exact_mod_cast hx
  have hyR : (0 : ℝ) < (cell.varY : ℝ) := by exact_mod_cast hy
  have hP : (0 : ℝ) < (cell.varX : ℝ) * (cell.varY : ℝ) := mul_pos hxR hyR
  have hr2 : r ^ 2 * ((cell.varX : ℝ) * (cell.varY : ℝ)) =
      ((cell.cov : ℝ)) ^ 2 := by
    have h2 := congrArg (fun x => x ^ 2) hr
    simpa [mul_pow, Real.sq_sqrt hP.le] using h2
  have hcsR : ((cell.cov : ℝ)) ^ 2 ≤ (cell.varX : ℝ) * (cell.varY : ℝ) := by
    exact_mod_cast hcs
  have hr2le : r ^ 2 ≤ 1 := by nlinarith
  constructor <;> nlinarith [sq_nonneg (r - 1), sq_nonneg (r + 1)]

theorem correlation_matrix_mem_decomp {t : Table} {a b : String}
    {cell : CorrCell} (h : (a, b, cell) ∈ correlation_matrix t) :
    2 ≤ (numericCols t).length ∧
    ∃ ci ∈ numericCols t, ∃ cj ∈ numericCols t,
      a = ci.name ∧ b = cj.name ∧ cell = corrCell ci cj := by
  by_cases hlt : (numericCols t).length < 2
  · simp [correlation_matrix, hlt] at h
  · refine ⟨by omega, ?_⟩
    simp only [correlation_matrix, if_neg hlt] at h
    obtain ⟨ci, hci, hmem⟩ := List.mem_flatMap.mp h
    obtain ⟨cj, hcj, heq⟩ := List.mem_map.mp hmem
    simp only [Prod.mk.injEq] at heq
    obtain ⟨h1, h2, h3⟩ := heq
    exact ⟨ci, hci, cj, hcj, h1.symm, h2.symm, h3.symm⟩

theorem correlation_matrix_mem (t : Table)
    (h2 : 2 ≤ (numericCols t).length) {ci cj : Column}
    (hi : ci ∈ numericCols t) (hj : cj ∈ numericCols t) :
    (ci.name, cj.name, corrCell ci cj) ∈ correlation_matrix t := by
  have hn : ¬ ((numericCols t).length < 2) := by omega
  simp only [correlation_matrix, if_neg hn]
  refine List.mem_flatMap.mpr ⟨ci, hi, ?_⟩
  exact List.mem_map.mpr ⟨cj, hj, rfl⟩

theorem isPearson_swapCell (cell : CorrCell) (r : ℝ) :
    IsPearson ⟨cell.cov, cell.varY, cell.varX⟩ r ↔ IsPearson cell r := by
  unfold IsPearson
  constructor
  · rintro ⟨h1, h2, h3⟩
    exact ⟨h2, h1, by rw [mul_comm ((cell.varX : ℝ)) _]; exact h3⟩
  · rintro ⟨h1, h2, h3⟩
    exact ⟨h2, h1, by rw [mul_comm ((cell.varY : ℝ)) _]; exact h3⟩

/-- C7: the correlation matrix is empty whenever fewer than two numeric
columns exist; it is symmetric (the (j, i) entry carries the same covariance
with the variances swapped, hence the same Pearson value); every Pearson
value of an entry lies in [-1, 1]; a diagonal entry with non-zero variance
has Pearson value exactly 1; and every pair of numeric columns has an entry
(zero-variance columns included: their entries exist but encode no real
Pearson value, the NaN of the original). -/
theorem correlation_matrix_properties (t : Table) :
    ((numericCols t).length < 2 → correlation_matrix t = []) ∧
    (∀ a b cell, (a, b, cell) ∈ correlation_matrix t →
      ∃ cell2, (b, a, cell2) ∈ correlation_matrix t ∧
        cell2.cov = cell.cov ∧ cell2.varX = cell.varY ∧
        cell2.varY = cell.varX ∧
        ∀ r : ℝ, IsPearson cell2 r ↔ IsPearson cell r) ∧
    (∀ cx cy : Column, ∀ r : ℝ, IsPearson (corrCell cx cy) r →
      -1 ≤ r ∧ r ≤ 1) ∧
    (∀ cx : Column, 0 < (corrCell cx cx).varX →
      IsPearson (corrCell cx cx) 1) ∧
    (2 ≤ (numericCols t).length → ∀ ci ∈ numericCols t,
      ∀ cj ∈ numericCols t,
      (ci.name, cj.name, corrCell ci cj) ∈ correlation_matrix t) := by
  refine ⟨?_, ?_, ?_, isPearson_diag, ?_⟩
  · intro h
    simp [correlation_matrix, h]
  · intro a b cell hmem
    obtain ⟨h2, ci, hci, cj, hcj, rfl, rfl, rfl⟩ :=
      correlation_matrix_mem_decomp hmem
    refine ⟨corrCell cj ci, correlation_matrix_mem t h2 hcj hci,
      ?_, ?_, ?_, ?_⟩
    · rw [corrCell_symm ci cj]
    · rw [corrCell_symm ci cj]
    · rw [corrCell_symm ci cj]
    · intro r
      rw [corrCell_symm ci cj]
      exact isPearson_swapCell (corrCell ci cj) r
  · intro cx cy r hp
    exact isPearson_bounds (corrCell_cov_sq_le cx cy) hp
  · intro h2 ci hci cj hcj
    exact correlation_matrix_mem t h2 hci hcj

unseal Rat.add Rat.mul Rat.sub Rat.inv in
/-- C7 witness: a one-numeric-column table yields an empty matrix; the
diagonal entry of a two-point column has Pearson value 1, which lies in
[-1, 1]; and a two-numeric-column table has the (x, y) entry and a
symmetric (y, x) entry. -/
theorem correlation_matrix_properties_witness :
    correlation_matrix tableOneNumeric = [] ∧
    IsPearson (corrCell xcol xcol) 1 ∧
    ((-1 : ℝ) ≤ 1 ∧ (1 : ℝ) ≤ 1) ∧
    ("x", "y", corrCell xcol ycol) ∈ correlation_matrix tableTwoNumeric ∧
    (∃ cell2, ("y", "x", cell2) ∈ correlation_matrix tableTwoNumeric ∧
      cell2.cov = (corrCell xcol ycol).cov ∧
      cell2.varX = (corrCell xcol ycol).varY ∧
      cell2.varY = (corrCell xcol ycol).varX ∧
      ∀ r : ℝ, IsPearson cell2 r ↔ IsPearson (corrCell xcol ycol) r) :=
  ⟨(correlation_matrix_properties tableOneNumeric).1 (by decide),
   (correlation_matrix_properties tableTwoNumeric).2.2.2.1 xcol (by decide),
   (correlation_matrix_properties tableTwoNumeric).2.2.1 xcol xcol 1
     ((correlation_matrix_properties tableTwoNumeric).2.2.2.1 xcol
       (by decide)),
   (correlation_matrix_properties tableTwoNumeric).2.2.2.2 (by decide)
     xcol (by decide) ycol (by decide),
   (correlation_matrix_properties tableTwoNumeric).2.1 "x" "y"
     (corrCell xcol ycol)
     ((correlation_matrix_properties tableTwoNumeric).2.2.2.2 (by decide)
       xcol (by decide) ycol (by decide))⟩

end EdaCore
